import Mathlib

/-!
Shallow embedding of the transformer-dashboard state module
(src/stores/transformerStore.ts, composition-API version) and the
voltage-chart derivations (VoltageChart.vue), over exact rationals for
JS numbers and Lean `String` for JS strings.  `localStorage` for the
single dashboard key is modelled as an optional stored value that is
either a well-formed preferences blob (with each of the three persisted
fields optionally present) or malformed JSON.
-/

/-- Health enumeration from src/types.ts (`TransformerHealth`). -/
inductive TransformerHealth where
  | Excellent
  | Good
  | Fair
  | Poor
  | Critical
deriving DecidableEq, Repr

/-- The string value backing each enum member in src/types.ts. -/
def TransformerHealth.text : TransformerHealth → String
  | .Excellent => "Excellent"
  | .Good => "Good"
  | .Fair => "Fair"
  | .Poor => "Poor"
  | .Critical => "Critical"

/-- A single voltage reading (src/types.ts `VoltageReading`); voltage is a
JS number, modelled as an exact rational. -/
structure VoltageReading where
  timestamp : String
  voltage : ℚ
deriving DecidableEq, Repr

/-- A transformer record (src/types.ts `Transformer`). -/
structure Transformer where
  assetId : Int
  name : String
  region : String
  health : TransformerHealth
  lastTenVoltageReadings : List VoltageReading
deriving DecidableEq, Repr

/-- JS `s.includes(q)`: `q` occurs as a contiguous substring of `s`. -/
def jsIncludes (s q : String) : Bool := decide (q.data <:+: s.data)

/-- JS `s.toLowerCase()`, modelled as the character-wise lowercase map. -/
def jsToLower (s : String) : String := ⟨s.data.map Char.toLower⟩

/-- The three-field preferences blob written by `persistState`; each field
is optional to model a JSON object in which the key may be absent. -/
structure PersistedBlob where
  selectedTransformerIds : Option (List Int)
  tableSearch : Option String
  healthFilter : Option (Option TransformerHealth)
deriving DecidableEq, Repr

/-- The value stored under the dashboard `STORAGE_KEY`: either a JSON
object carrying the (optional) preference fields, or text that
`JSON.parse` rejects. -/
inductive StoredValue where
  | malformed
  | blob (b : PersistedBlob)
deriving DecidableEq, Repr

/-- `localStorage` restricted to the one dashboard key: `none` when the
key is absent. -/
abbrev Storage := Option StoredValue

/-- `loadPersistedState` (transformerStore.ts): `null` when the key is
absent or the JSON is malformed, otherwise the three preference fields
extracted from the parsed object (unknown fields are dropped). -/
def loadPersistedState (st : Storage) : Option PersistedBlob :=
  match st with
  | none => none
  | some .malformed => none
  | some (.blob b) => some b

/-- `persistState` (transformerStore.ts): the value written to storage,
an object carrying all three preference fields. -/
def persistState (selectedTransformerIds : List Int) (tableSearch : String)
    (healthFilter : Option TransformerHealth) : StoredValue :=
  .blob ⟨some selectedTransformerIds, some tableSearch, some healthFilter⟩

/-- The store's reactive state (the refs declared in
`useTransformerStore`). -/
structure StoreState where
  transformers : List Transformer
  selectedTransformerIds : List Int
  tableSearch : String
  healthFilter : Option TransformerHealth
  hoveredTransformerId : Option Int
deriving DecidableEq, Repr

/-- `getDefaultState` (transformerStore.ts), parameterised by the list
the dataset provider (`loadTransformers`) returns. -/
def getDefaultState (loaded : List Transformer) : StoreState where
  transformers := loaded
  selectedTransformerIds := loaded.map (·.assetId)
  tableSearch := ""
  healthFilter := none
  hoveredTransformerId := none

/-- JS `??` on the persisted `healthFilter` field: both an absent key
(undefined) and a stored JSON `null` fall through to the default. -/
def jsNullishHealth (v : Option (Option TransformerHealth))
    (d : Option TransformerHealth) : Option TransformerHealth :=
  match v with
  | some (some x) => some x
  | _ => d

/-- The store construction in `useTransformerStore`: default state merged
with any persisted preferences via `??`; `hoveredTransformerId` always
starts as `null`. -/
def initStore (loaded : List Transformer) (st : Storage) : StoreState :=
  let d := getDefaultState loaded
  match loadPersistedState st with
  | none => d
  | some p =>
    { transformers := d.transformers
      selectedTransformerIds := p.selectedTransformerIds.getD d.selectedTransformerIds
      tableSearch := p.tableSearch.getD d.tableSearch
      healthFilter := jsNullishHealth p.healthFilter d.healthFilter
      hoveredTransformerId := none }

/-- The `matchesHealth` conjunct of the filter: `!healthFilter.value ||
t.health === healthFilter.value`. -/
def matchesHealth (hf : Option TransformerHealth) (t : Transformer) : Bool :=
  match hf with
  | none => true
  | some h => t.health == h

/-- The `matchesSearch` conjunct of the filter, with `q` the lowercased
search text: `!q || name/region/health lowercased includes q`. -/
def matchesSearch (q : String) (t : Transformer) : Bool :=
  q == "" || jsIncludes (jsToLower t.name) q || jsIncludes (jsToLower t.region) q
    || jsIncludes (jsToLower t.health.text) q

/-- The `filteredTransformers` computed property (transformerStore.ts). -/
def filteredTransformers (s : StoreState) : List Transformer :=
  let q := jsToLower s.tableSearch
  s.transformers.filter (fun t => matchesSearch q t && matchesHealth s.healthFilter t)

/-- Store state together with the durable storage the actions write
through (`persistState` is called at the end of each persisted
mutation). -/
structure Env where
  state : StoreState
  storage : Storage
deriving DecidableEq, Repr

/-- The `persistState(selected, search, filter)` call each persisted
action ends with. -/
def doPersist (e : Env) : Env :=
  { e with storage := some (persistState e.state.selectedTransformerIds
      e.state.tableSearch e.state.healthFilter) }

/-- `toggleTransformerSelection` (transformerStore.ts): remove the id if
present in the selection, append it otherwise, then persist. -/
def toggleTransformerSelection (assetId : Int) (e : Env) : Env :=
  let sel := e.state.selectedTransformerIds
  let sel' := if sel.contains assetId
    then sel.filter (fun id => id != assetId)
    else sel ++ [assetId]
  doPersist { e with state := { e.state with selectedTransformerIds := sel' } }

/-- `setTableSearch` (transformerStore.ts). -/
def setTableSearch (search : String) (e : Env) : Env :=
  doPersist { e with state := { e.state with tableSearch := search } }

/-- `setHealthFilter` (transformerStore.ts). -/
def setHealthFilter (filter : Option TransformerHealth) (e : Env) : Env :=
  doPersist { e with state := { e.state with healthFilter := filter } }

/-- `setSelectedTransformerIds` (transformerStore.ts). -/
def setSelectedTransformerIds (ids : List Int) (e : Env) : Env :=
  doPersist { e with state := { e.state with selectedTransformerIds := ids } }

/-- `setHoveredTransformer` (transformerStore.ts); not persisted. -/
def setHoveredTransformer (assetId : Option Int) (e : Env) : Env :=
  { e with state := { e.state with hoveredTransformerId := assetId } }

/-- `hydrateFromStorage` (transformerStore.ts): re-read the persisted
blob and overwrite each of the three fields only when that field is
present (`!== undefined`) in the blob. -/
def hydrateFromStorage (e : Env) : Env :=
  match loadPersistedState e.storage with
  | none => e
  | some p =>
    { e with state :=
      { e.state with
        selectedTransformerIds := p.selectedTransformerIds.getD e.state.selectedTransformerIds
        tableSearch := p.tableSearch.getD e.state.tableSearch
        healthFilter := match p.healthFilter with
          | some v => v
          | none => e.state.healthFilter } }

/-- `allVoltages` in `voltageDomain` (VoltageChart.vue): every voltage of
every reading of every transformer in the full working set. -/
def allVoltages (ts : List Transformer) : List ℚ :=
  ts.flatMap (fun t => t.lastTenVoltageReadings.map (·.voltage))

/-- The `voltageDomain` computed property (VoltageChart.vue): `[0, 100]`
when there are no readings; otherwise the extrema (`Math.min` / `Math.max`
over the spread list) padded as in the source, where `min * 0.1 || 10`
falls back to `10` exactly when the product is zero. -/
def voltageDomain (ts : List Transformer) : ℚ × ℚ :=
  match allVoltages ts with
  | [] => (0, 100)
  | v :: vs =>
    let mn := vs.foldl min v
    let mx := vs.foldl max v
    if mn = mx then
      let padding := if mn * (1/10) = 0 then (10 : ℚ) else mn * (1/10)
      (mn - padding, mx + padding)
    else
      let range := mx - mn
      let padding := range * (1/10)
      (mn - padding, mx + padding)

/-- `Math.ceil(m / 5000) * 5000`, the rounding applied to the padded
domain maximum. -/
def yAxisCeil (m : ℚ) : ℚ := (⌈m / 5000⌉ : ℤ) * 5000

/-- The `yAxisMax` computed property (VoltageChart.vue). -/
def yAxisMax (ts : List Transformer) : ℚ := yAxisCeil (voltageDomain ts).2

/-- The `sortedTimestamps` computed property (VoltageChart.vue): the
timestamps of the first transformer of the filtered list, sorted
ascending by the string comparator; empty when the filtered list is
empty.  The JS comparator sort is modelled by a sort with respect to the
lexicographic order on strings. -/
def sortedTimestamps (s : StoreState) : List String :=
  match filteredTransformers s with
  | [] => []
  | first :: _ =>
    List.insertionSort (fun a b : String => a ≤ b)
      (first.lastTenVoltageReadings.map (·.timestamp))

/-- One point of a chart dataset (VoltageChart.vue `chartData`): the
voltage of the reading found by exact timestamp equality, or `null`
(`none`) when no reading matches. -/
def chartLookup (t : Transformer) (ts : String) : Option ℚ :=
  match t.lastTenVoltageReadings.find? (fun r => r.timestamp == ts) with
  | some r => some r.voltage
  | none => none

/-- The `data` array of one chart dataset (VoltageChart.vue `chartData`):
each axis timestamp mapped through the exact-equality lookup. -/
def chartDatasetData (s : StoreState) (t : Transformer) : List (Option ℚ) :=
  (sortedTimestamps s).map (chartLookup t)

/-- The `datasets` of `chartData` (VoltageChart.vue), keeping only the
series values: the filtered transformers that are currently selected,
each paired with its plotted data array. -/
def chartDatasets (s : StoreState) : List (Transformer × List (Option ℚ)) :=
  ((filteredTransformers s).filter
      (fun t => s.selectedTransformerIds.contains t.assetId)).map
    (fun t => (t, chartDatasetData s t))

/-- The filter predicate of claim C1, written from the spec: the search
text is empty or a case-insensitive substring of the name, region or
health text, and the health filter is "all" (`none`) or equal to the
transformer's health. -/
def specFilterPred (s : StoreState) (t : Transformer) : Prop :=
  (s.tableSearch = "" ∨
    (jsToLower s.tableSearch).data <:+: (jsToLower t.name).data ∨
    (jsToLower s.tableSearch).data <:+: (jsToLower t.region).data ∨
    (jsToLower s.tableSearch).data <:+: (jsToLower t.health.text).data) ∧
  (s.healthFilter = none ∨ s.healthFilter = some t.health)

instance (s : StoreState) (t : Transformer) : Decidable (specFilterPred s t) := by
  unfold specFilterPred; infer_instance

theorem jsToLower_eq_empty_iff (s : String) : jsToLower s = "" ↔ s = "" := by
  cases s with
  | mk data =>
    simp [jsToLower, String.ext_iff]

theorem foldl_min_mem {α : Type} [LinearOrder α] (l : List α) (v : α) :
    l.foldl min v ∈ v :: l := by
  induction l generalizing v with
  | nil => simp
  | cons a as ih =>
    rw [List.foldl_cons]
    rcases List.mem_cons.mp (ih (min v a)) with h1 | h1
    · rcases min_choice v a with he | he
      · rw [h1, he]; exact List.mem_cons_self _ _
      · rw [h1, he]; exact List.mem_cons.mpr (Or.inr (List.mem_cons_self _ _))
    · exact List.mem_cons.mpr (Or.inr (List.mem_cons.mpr (Or.inr h1)))

theorem foldl_min_le {α : Type} [LinearOrder α] (l : List α) (v : α) :
    ∀ u ∈ v :: l, l.foldl min v ≤ u := by
  induction l generalizing v with
  | nil =>
    intro u hu
    simp only [List.mem_singleton] at hu
    simp [hu]
  | cons a as ih =>
    intro u hu
    rw [List.foldl_cons]
    rcases List.mem_cons.mp hu with rfl | hu2
    · exact le_trans (ih (min u a) _ (List.mem_cons_self _ _)) (min_le_left u a)
    · rcases List.mem_cons.mp hu2 with rfl | hu3
      · exact le_trans (ih (min v u) _ (List.mem_cons_self _ _)) (min_le_right v u)
      · exact ih (min v a) u (List.mem_cons.mpr (Or.inr hu3))

theorem foldl_max_mem {α : Type} [LinearOrder α] (l : List α) (v : α) :
    l.foldl max v ∈ v :: l := by
  induction l generalizing v with
  | nil => simp
  | cons a as ih =>
    rw [List.foldl_cons]
    rcases List.mem_cons.mp (ih (max v a)) with h1 | h1
    · rcases max_choice v a with he | he
      · rw [h1, he]; exact List.mem_cons_self _ _
      · rw [h1, he]; exact List.mem_cons.mpr (Or.inr (List.mem_cons_self _ _))
    · exact List.mem_cons.mpr (Or.inr (List.mem_cons.mpr (Or.inr h1)))

theorem foldl_le_max {α : Type} [LinearOrder α] (l : List α) (v : α) :
    ∀ u ∈ v :: l, u ≤ l.foldl max v := by
  induction l generalizing v with
  | nil =>
    intro u hu
    simp only [List.mem_singleton] at hu
    simp [hu]
  | cons a as ih =>
    intro u hu
    rw [List.foldl_cons]
    rcases List.mem_cons.mp hu with rfl | hu2
    · exact le_trans (le_max_left u a) (ih (max u a) _ (List.mem_cons_self _ _))
    · rcases List.mem_cons.mp hu2 with rfl | hu3
      · exact le_trans (le_max_right v u) (ih (max v u) _ (List.mem_cons_self _ _))
      · exact ih (max v a) u (List.mem_cons.mpr (Or.inr hu3))

/-- C9: with the storage key absent, or holding malformed JSON, the store
is constructed from the defaults: all loaded asset ids selected, empty
search, health filter "all" (`none`), no hovered transformer. -/
theorem initStore_defaults_on_absent_or_malformed (loaded : List Transformer) :
    initStore loaded none =
      { transformers := loaded
        selectedTransformerIds := loaded.map (·.assetId)
        tableSearch := ""
        healthFilter := none
        hoveredTransformerId := none } ∧
    initStore loaded (some .malformed) =
      { transformers := loaded
        selectedTransformerIds := loaded.map (·.assetId)
        tableSearch := ""
        healthFilter := none
        hoveredTransformerId := none } := by
  exact ⟨rfl, rfl⟩

/-- C8: persisting a preferences triple and constructing a fresh store
that reads it back restores the same selected ids (hence the same set),
the same search string, and the same health filter. -/
theorem persist_roundtrip (loaded : List Transformer) (sel : List Int)
    (search : String) (hf : Option TransformerHealth) :
    (initStore loaded (some (persistState sel search hf))).selectedTransformerIds = sel ∧
    (∀ x : Int,
      x ∈ (initStore loaded (some (persistState sel search hf))).selectedTransformerIds ↔
        x ∈ sel) ∧
    (initStore loaded (some (persistState sel search hf))).tableSearch = search ∧
    (initStore loaded (some (persistState sel search hf))).healthFilter = hf := by
  refine ⟨?_, ?_, ?_, ?_⟩ <;> cases hf <;> simp [initStore, persistState,
    loadPersistedState, jsNullishHealth, getDefaultState]

/-- A concrete environment with an empty transformer list, an empty
selection, and nothing persisted. -/
def envEmpty : Env :=
  { state := { transformers := [], selectedTransformerIds := [], tableSearch := "",
               healthFilter := none, hoveredTransformerId := none }
    storage := none }

/-- C2 counterexample: asset id 5 occurs in no transformer of `envEmpty`,
yet `toggleTransformerSelection 5` changes `selectedTransformerIds`
(it appends the unknown id), so the call is not a no-op. -/
theorem toggle_unknown_id_not_noop :
    (∀ t ∈ envEmpty.state.transformers, t.assetId ≠ 5) ∧
    (toggleTransformerSelection 5 envEmpty).state.selectedTransformerIds ≠
      envEmpty.state.selectedTransformerIds := by
  constructor
  · intro t ht
    simp [envEmpty] at ht
  · decide

/-- C2 amended: for an asset id occurring in no transformer,
`toggleTransformerSelection` leaves `transformers`, `tableSearch`,
`healthFilter` and `hoveredTransformerId` unchanged, but still toggles
membership of the id in `selectedTransformerIds`: it appends the id when
absent from the selection (so the call is not a no-op) and removes it
when present. -/
theorem toggle_unknown_id_amended (e : Env) (assetId : Int)
    (h : ∀ t ∈ e.state.transformers, t.assetId ≠ assetId) :
    (toggleTransformerSelection assetId e).state.transformers = e.state.transformers ∧
    (toggleTransformerSelection assetId e).state.tableSearch = e.state.tableSearch ∧
    (toggleTransformerSelection assetId e).state.healthFilter = e.state.healthFilter ∧
    (toggleTransformerSelection assetId e).state.hoveredTransformerId =
      e.state.hoveredTransformerId ∧
    (assetId ∉ e.state.selectedTransformerIds →
      (toggleTransformerSelection assetId e).state.selectedTransformerIds =
        e.state.selectedTransformerIds ++ [assetId]) ∧
    (assetId ∈ e.state.selectedTransformerIds →
      ∀ x : Int, x ∈ (toggleTransformerSelection assetId e).state.selectedTransformerIds ↔
        x ∈ e.state.selectedTransformerIds ∧ x ≠ assetId) := by
  refine ⟨rfl, rfl, rfl, rfl, ?_, ?_⟩
  · intro hnot
    simp [toggleTransformerSelection, doPersist, hnot]
  · intro hmem x
    simp [toggleTransformerSelection, doPersist, hmem]

/-- Witness for `toggle_unknown_id_amended` at `envEmpty` and id 5. -/
theorem toggle_unknown_id_amended_witness :
    (toggleTransformerSelection 5 envEmpty).state.selectedTransformerIds =
      envEmpty.state.selectedTransformerIds ++ [5] :=
  (toggle_unknown_id_amended envEmpty 5
      (by intro t ht; simp [envEmpty] at ht)).2.2.2.2.1 (by decide)

/-- C7: when the toggled asset id occurs in `transformers`, two
successive `toggleTransformerSelection` calls with no mutation in
between restore `selectedTransformerIds` up to set equality. -/
theorem toggle_involutive_on_sets (e : Env) (assetId : Int)
    (h : assetId ∈ e.state.transformers.map (·.assetId)) :
    ∀ x : Int,
      x ∈ (toggleTransformerSelection assetId
            (toggleTransformerSelection assetId e)).state.selectedTransformerIds ↔
        x ∈ e.state.selectedTransformerIds := by
  intro x
  by_cases hc : assetId ∈ e.state.selectedTransformerIds
  · by_cases hx : x = assetId
    · subst hx
      simp [toggleTransformerSelection, doPersist, hc]
    · simp [toggleTransformerSelection, doPersist, hc, hx]
  · by_cases hx : x = assetId
    · subst hx
      simp [toggleTransformerSelection, doPersist, hc]
    · simp [toggleTransformerSelection, doPersist, hc, hx]

/-- A concrete transformer used by witnesses. -/
def tAlpha : Transformer :=
  { assetId := 1, name := "Alpha", region := "North", health := .Good,
    lastTenVoltageReadings := [] }

/-- A concrete environment holding `tAlpha`, with it selected. -/
def envAlpha : Env :=
  { state := { transformers := [tAlpha], selectedTransformerIds := [1], tableSearch := "",
               healthFilter := none, hoveredTransformerId := none }
    storage := none }

/-- Witness for `toggle_involutive_on_sets` at `envAlpha` and id 1. -/
theorem toggle_involutive_on_sets_witness :
    (1 : Int) ∈ (toggleTransformerSelection 1
        (toggleTransformerSelection 1 envAlpha)).state.selectedTransformerIds ↔
      (1 : Int) ∈ envAlpha.state.selectedTransformerIds :=
  toggle_involutive_on_sets envAlpha 1 (by decide) 1

theorem toggleSel_preserves_nodup (e : Env) (assetId : Int)
    (h : e.state.selectedTransformerIds.Nodup) :
    (toggleTransformerSelection assetId e).state.selectedTransformerIds.Nodup := by
  by_cases hc : assetId ∈ e.state.selectedTransformerIds
  · simpa [toggleTransformerSelection, doPersist, hc] using
      h.filter (fun id => id != assetId)
  · have : (toggleTransformerSelection assetId e).state.selectedTransformerIds =
      e.state.selectedTransformerIds ++ [assetId] := by
      simp [toggleTransformerSelection, doPersist, hc]
    rw [this]
    exact h.append (List.nodup_singleton assetId) (List.disjoint_singleton.mpr hc)

/-- C10: if `selectedTransformerIds` has no duplicates then it still has
none after one `toggleTransformerSelection` and after any finite
sequence of toggles; and the default state satisfies the invariant
whenever the loaded asset ids are distinct. -/
theorem toggle_sequences_preserve_nodup (e : Env) (assetId : Int) (ids : List Int)
    (h : e.state.selectedTransformerIds.Nodup) :
    (toggleTransformerSelection assetId e).state.selectedTransformerIds.Nodup ∧
    (ids.foldl (fun acc i => toggleTransformerSelection i acc)
        e).state.selectedTransformerIds.Nodup ∧
    (∀ loaded : List Transformer, (loaded.map (·.assetId)).Nodup →
      (getDefaultState loaded).selectedTransformerIds.Nodup) := by
  refine ⟨toggleSel_preserves_nodup e assetId h, ?_, fun loaded hl => hl⟩
  induction ids generalizing e with
  | nil => exact h
  | cons i is ih =>
    rw [List.foldl_cons]
    exact ih _ (toggleSel_preserves_nodup e i h)

/-- Witness for `toggle_sequences_preserve_nodup` at `envAlpha`. -/
theorem toggle_sequences_preserve_nodup_witness :
    (toggleTransformerSelection 2 envAlpha).state.selectedTransformerIds.Nodup ∧
    (([2, 1, 2] : List Int).foldl (fun acc i => toggleTransformerSelection i acc)
        envAlpha).state.selectedTransformerIds.Nodup ∧
    (∀ loaded : List Transformer, (loaded.map (·.assetId)).Nodup →
      (getDefaultState loaded).selectedTransformerIds.Nodup) :=
  toggle_sequences_preserve_nodup envAlpha 2 [2, 1, 2] (by decide)

/-- C3: `hydrateFromStorage` never touches `transformers`,
`hoveredTransformerId` or the storage itself; when the storage holds no
well-formed blob it is a complete no-op; and when it holds a blob, each
of the three persisted fields is overwritten with the blob's value
exactly when that field is present in the blob, and left at its
in-memory value when absent. -/
theorem hydrate_overwrites_present_fields (e : Env) :
    (hydrateFromStorage e).state.transformers = e.state.transformers ∧
    (hydrateFromStorage e).state.hoveredTransformerId = e.state.hoveredTransformerId ∧
    (hydrateFromStorage e).storage = e.storage ∧
    (loadPersistedState e.storage = none → hydrateFromStorage e = e) ∧
    (∀ b : PersistedBlob, e.storage = some (.blob b) →
      (∀ sel, b.selectedTransformerIds = some sel →
        (hydrateFromStorage e).state.selectedTransformerIds = sel) ∧
      (b.selectedTransformerIds = none →
        (hydrateFromStorage e).state.selectedTransformerIds =
          e.state.selectedTransformerIds) ∧
      (∀ q, b.tableSearch = some q → (hydrateFromStorage e).state.tableSearch = q) ∧
      (b.tableSearch = none →
        (hydrateFromStorage e).state.tableSearch = e.state.tableSearch) ∧
      (∀ hf, b.healthFilter = some hf → (hydrateFromStorage e).state.healthFilter = hf) ∧
      (b.healthFilter = none →
        (hydrateFromStorage e).state.healthFilter = e.state.healthFilter)) := by
  obtain ⟨st, storage⟩ := e
  rcases storage with _ | sv
  · simp [hydrateFromStorage, loadPersistedState]
  · rcases sv with _ | b
    · simp [hydrateFromStorage, loadPersistedState]
    · refine ⟨rfl, rfl, rfl, by intro hn; simp [loadPersistedState] at hn, ?_⟩
      intro b' hb'
      have hbb : b' = b := by
        have := congrArg (fun st => loadPersistedState st) hb'
        simpa [loadPersistedState] using this.symm
      subst hbb
      refine ⟨?_, ?_, ?_, ?_, ?_, ?_⟩
      · intro sel hsel
        simp [hydrateFromStorage, loadPersistedState, hsel]
      · intro hsel
        simp [hydrateFromStorage, loadPersistedState, hsel]
      · intro q hq
        simp [hydrateFromStorage, loadPersistedState, hq]
      · intro hq
        simp [hydrateFromStorage, loadPersistedState, hq]
      · intro hf hhf
        simp [hydrateFromStorage, loadPersistedState, hhf]
      · intro hhf
        simp [hydrateFromStorage, loadPersistedState, hhf]

/-- A concrete environment whose stored blob carries only `tableSearch`. -/
def envHyd : Env :=
  { state := { transformers := [tAlpha], selectedTransformerIds := [1], tableSearch := "old",
               healthFilter := some .Good, hoveredTransformerId := none }
    storage := some (.blob { selectedTransformerIds := none, tableSearch := some "new",
                             healthFilter := none }) }

/-- Witness for `hydrate_overwrites_present_fields` at `envHyd`: the
present `tableSearch` is overwritten, the absent fields are untouched. -/
theorem hydrate_overwrites_present_fields_witness :
    (hydrateFromStorage envHyd).state.tableSearch = "new" ∧
    (hydrateFromStorage envHyd).state.selectedTransformerIds =
      envHyd.state.selectedTransformerIds ∧
    (hydrateFromStorage envHyd).state.healthFilter = envHyd.state.healthFilter := by
  have h := (hydrate_overwrites_present_fields envHyd).2.2.2.2
    { selectedTransformerIds := none, tableSearch := some "new", healthFilter := none } rfl
  exact ⟨h.2.2.1 "new" rfl, h.2.1 rfl, h.2.2.2.2.2 rfl⟩

/-- C6: the displayed y-axis ceiling `yAxisCeil m` is the least multiple
of 5000 that is at least the padded domain maximum `m` (so 10700 yields
15000 and 10000 stays 10000), and `yAxisMax` applies it to the padded
maximum of the voltage domain. -/
theorem yAxisCeil_least_multiple_of_5000 (m : ℚ) :
    (∃ k : ℤ, yAxisCeil m = k * 5000) ∧
    m ≤ yAxisCeil m ∧
    (∀ k : ℤ, m ≤ k * 5000 → yAxisCeil m ≤ k * 5000) ∧
    yAxisCeil 10700 = 15000 ∧
    yAxisCeil 10000 = 10000 ∧
    (∀ ts : List Transformer, yAxisMax ts = yAxisCeil (voltageDomain ts).2) := by
  have h5 : (0 : ℚ) < 5000 := by norm_num
  refine ⟨⟨⌈m / 5000⌉, by push_cast [yAxisCeil]; ring⟩, ?_, ?_, ?_, ?_, fun ts => rfl⟩
  · have := Int.le_ceil (m / 5000)
    calc m = m / 5000 * 5000 := by field_simp
    _ ≤ (⌈m / 5000⌉ : ℚ) * 5000 := by
        exact mul_le_mul_of_nonneg_right this (le_of_lt h5)
    _ = yAxisCeil m := by push_cast [yAxisCeil]; ring
  · intro k hk
    have hdiv : m / 5000 ≤ (k : ℚ) := by
      rw [div_le_iff h5]
      exact hk
    have hceil : ⌈m / 5000⌉ ≤ k := Int.ceil_le.mpr hdiv
    have : ((⌈m / 5000⌉ : ℤ) : ℚ) ≤ ((k : ℤ) : ℚ) := by exact_mod_cast hceil
    calc yAxisCeil m = ((⌈m / 5000⌉ : ℤ) : ℚ) * 5000 := by push_cast [yAxisCeil]; ring
    _ ≤ (k : ℚ) * 5000 := mul_le_mul_of_nonneg_right this (le_of_lt h5)
  · show ((⌈(10700 : ℚ) / 5000⌉ : ℤ) : ℚ) * 5000 = 15000
    have : (⌈(10700 : ℚ) / 5000⌉ : ℤ) = 3 := by
      rw [Int.ceil_eq_iff] <;> norm_num
    rw [this]; norm_num
  · show ((⌈(10000 : ℚ) / 5000⌉ : ℤ) : ℚ) * 5000 = 10000
    have : (⌈(10000 : ℚ) / 5000⌉ : ℤ) = 2 := by
      rw [Int.ceil_eq_iff] <;> norm_num
    rw [this]; norm_num

/-- Witness for `yAxisCeil_least_multiple_of_5000` at the padded maximum
10700 and the multiple 3 * 5000. -/
theorem yAxisCeil_least_multiple_of_5000_witness :
    (10700 : ℚ) ≤ (3 : ℤ) * 5000 ∧ yAxisCeil 10700 ≤ (3 : ℤ) * 5000 :=
  ⟨by norm_num, (yAxisCeil_least_multiple_of_5000 10700).2.2.1 3 (by norm_num)⟩

/-- Two transformers each carrying one reading of 100 V. -/
def tHundredA : Transformer :=
  { assetId := 1, name := "A", region := "R", health := .Good,
    lastTenVoltageReadings := [{ timestamp := "t1", voltage := 100 }] }

/-- Second transformer with a single 100 V reading. -/
def tHundredB : Transformer :=
  { assetId := 2, name := "B", region := "R", health := .Good,
    lastTenVoltageReadings := [{ timestamp := "t2", voltage := 100 }] }

/-- A transformer with a single 0 V reading. -/
def tZero : Transformer :=
  { assetId := 3, name := "C", region := "R", health := .Good,
    lastTenVoltageReadings := [{ timestamp := "t3", voltage := 0 }] }

/-- C4: the voltage domain is computed over all readings of all
transformers: `[0, 100]` when there are none; otherwise the true extrema
`mn`/`mx` padded by 10% of `mn` when `mn = mx` (by 10 absolute when
`mn = 0`) and by 10% of `mx - mn` otherwise.  In particular readings
`[100, 100]` give `[90, 110]`, a single `[0]` gives `[-10, 10]`, and no
readings give `[0, 100]`. -/
theorem voltageDomain_spec (ts : List Transformer) :
    (allVoltages ts = [] → voltageDomain ts = (0, 100)) ∧
    (allVoltages ts ≠ [] →
      ∃ mn mx : ℚ, mn ∈ allVoltages ts ∧ mx ∈ allVoltages ts ∧
        (∀ u ∈ allVoltages ts, mn ≤ u ∧ u ≤ mx) ∧
        voltageDomain ts =
          (if mn = mx then
            if mn = 0 then (mn - 10, mx + 10)
            else (mn - mn * (1 / 10), mx + mn * (1 / 10))
          else (mn - (mx - mn) * (1 / 10), mx + (mx - mn) * (1 / 10)))) ∧
    voltageDomain [tHundredA, tHundredB] = (90, 110) ∧
    voltageDomain [tZero] = (-10, 10) ∧
    voltageDomain [] = (0, 100) := by
  refine ⟨?_, ?_, ?_, ?_, rfl⟩
  · intro h
    simp [voltageDomain, h]
  · intro h
    obtain ⟨v, vs, hv⟩ : ∃ v vs, allVoltages ts = v :: vs := by
      cases hav : allVoltages ts with
      | nil => exact absurd hav h
      | cons a l => exact ⟨a, l, rfl⟩
    refine ⟨vs.foldl min v, vs.foldl max v, ?_, ?_, ?_, ?_⟩
    · rw [hv]; exact foldl_min_mem vs v
    · rw [hv]; exact foldl_max_mem vs v
    · intro u hu
      rw [hv] at hu
      exact ⟨foldl_min_le vs v u hu, foldl_le_max vs v u hu⟩
    · have hL : voltageDomain ts =
          (if vs.foldl min v = vs.foldl max v then
            (vs.foldl min v -
               (if vs.foldl min v * (1 / 10) = 0 then (10 : ℚ)
                else vs.foldl min v * (1 / 10)),
             vs.foldl max v +
               (if vs.foldl min v * (1 / 10) = 0 then (10 : ℚ)
                else vs.foldl min v * (1 / 10)))
          else
            (vs.foldl min v - (vs.foldl max v - vs.foldl min v) * (1 / 10),
             vs.foldl max v + (vs.foldl max v - vs.foldl min v) * (1 / 10))) := by
        unfold voltageDomain
        rw [hv]
      rw [hL]
      by_cases hmm : vs.foldl min v = vs.foldl max v
      · by_cases h0 : vs.foldl min v = 0
        · rw [if_pos hmm, if_pos hmm, if_pos (by rw [h0]; ring), if_pos h0]
        · have hns : vs.foldl min v * (1 / 10) ≠ 0 := by
            simp [mul_eq_zero, h0]
          rw [if_pos hmm, if_pos hmm, if_neg hns, if_neg h0]
      · rw [if_neg hmm, if_neg hmm]
  · show voltageDomain [tHundredA, tHundredB] = (90, 110)
    norm_num [voltageDomain, allVoltages, tHundredA, tHundredB]
  · show voltageDomain [tZero] = (-10, 10)
    norm_num [voltageDomain, allVoltages, tZero]

/-- Witness for `voltageDomain_spec` on the empty transformer list. -/
theorem voltageDomain_spec_witness :
    voltageDomain [] = (0, 100) :=
  (voltageDomain_spec []).1 rfl

theorem matchesSearch_true_iff (s : StoreState) (t : Transformer) :
    matchesSearch (jsToLower s.tableSearch) t = true ↔
      (s.tableSearch = "" ∨
        (jsToLower s.tableSearch).data <:+: (jsToLower t.name).data ∨
        (jsToLower s.tableSearch).data <:+: (jsToLower t.region).data ∨
        (jsToLower s.tableSearch).data <:+: (jsToLower t.health.text).data) := by
  simp only [matchesSearch, Bool.or_eq_true, beq_iff_eq, jsIncludes,
    decide_eq_true_eq, jsToLower_eq_empty_iff]
  tauto

theorem matchesHealth_true_iff (hf : Option TransformerHealth) (t : Transformer) :
    matchesHealth hf t = true ↔ (hf = none ∨ hf = some t.health) := by
  cases hf with
  | none => simp [matchesHealth]
  | some h =>
    simp only [matchesHealth, beq_iff_eq]
    constructor
    · intro he
      exact Or.inr (by rw [he])
    · rintro (hc | hc)
      · exact absurd hc (by simp)
      · exact (Option.some_injective _ hc).symm

/-- C1: `filteredTransformers` is exactly the order-preserving
sub-sequence of `transformers` satisfying the spec predicate (empty
search or case-insensitive substring of name, region or health text, and
health filter "all" or exact match); empty search text imposes no text
constraint. -/
theorem filteredTransformers_spec (s : StoreState) :
    List.Sublist (filteredTransformers s) s.transformers ∧
    filteredTransformers s =
      s.transformers.filter (fun t => decide (specFilterPred s t)) ∧
    (∀ t : Transformer,
      t ∈ filteredTransformers s ↔ t ∈ s.transformers ∧ specFilterPred s t) ∧
    (s.tableSearch = "" →
      filteredTransformers s =
        s.transformers.filter (fun t => matchesHealth s.healthFilter t)) := by
  have hfilter : filteredTransformers s =
      s.transformers.filter (fun t => decide (specFilterPred s t)) := by
    unfold filteredTransformers
    apply List.filter_congr
    intro t ht
    apply Bool.eq_iff_iff.mpr
    rw [Bool.and_eq_true, decide_eq_true_eq]
    unfold specFilterPred
    rw [matchesSearch_true_iff s t, matchesHealth_true_iff s.healthFilter t]
  refine ⟨?_, hfilter, ?_, ?_⟩
  · rw [hfilter]; exact List.filter_sublist s.transformers
  · intro t
    rw [hfilter, List.mem_filter, decide_eq_true_eq]
  · intro hq
    unfold filteredTransformers
    apply List.filter_congr
    intro t ht
    have : matchesSearch (jsToLower s.tableSearch) t = true := by
      rw [matchesSearch_true_iff]
      exact Or.inl hq
    rw [this, Bool.true_and]

/-- Witness for `filteredTransformers_spec` at `envAlpha.state`, whose
search text is empty. -/
theorem filteredTransformers_spec_witness :
    filteredTransformers envAlpha.state =
      envAlpha.state.transformers.filter
        (fun t => matchesHealth envAlpha.state.healthFilter t) :=
  (filteredTransformers_spec envAlpha.state).2.2.2 rfl

/-- C5: the x-axis is the ascending sort of the first filtered
transformer's timestamps (empty when the filtered list is empty); the
plotted series are exactly the filtered transformers that are selected;
and each plotted value is the voltage of the reading matching the axis
timestamp exactly, with `null` (not zero) when no reading matches. -/
theorem chart_axis_and_gap_spec (s : StoreState) :
    (filteredTransformers s = [] → sortedTimestamps s = []) ∧
    (∀ first rest, filteredTransformers s = first :: rest →
      (sortedTimestamps s).Sorted (fun a b : String => a ≤ b) ∧
      (sortedTimestamps s).Perm
        (first.lastTenVoltageReadings.map (·.timestamp))) ∧
    (∀ t : Transformer, t ∈ filteredTransformers s →
      s.selectedTransformerIds.contains t.assetId = true →
      (t, (sortedTimestamps s).map (chartLookup t)) ∈ chartDatasets s) ∧
    (∀ t data, (t, data) ∈ chartDatasets s →
      t ∈ filteredTransformers s ∧
      s.selectedTransformerIds.contains t.assetId = true ∧
      data = (sortedTimestamps s).map (chartLookup t)) ∧
    (∀ t : Transformer, ∀ ts : String,
      (chartLookup t ts = none ↔
        ∀ r ∈ t.lastTenVoltageReadings, r.timestamp ≠ ts) ∧
      (∀ v : ℚ, chartLookup t ts = some v →
        ∃ r ∈ t.lastTenVoltageReadings, r.timestamp = ts ∧ r.voltage = v)) := by
  refine ⟨?_, ?_, ?_, ?_, ?_⟩
  · intro h
    unfold sortedTimestamps
    rw [h]
  · intro first rest h
    unfold sortedTimestamps
    rw [h]
    exact ⟨List.sorted_insertionSort _ _, List.perm_insertionSort _ _⟩
  · intro t htf hts
    unfold chartDatasets
    rw [List.mem_map]
    refine ⟨t, ?_, rfl⟩
    rw [List.mem_filter]
    exact ⟨htf, hts⟩
  · intro t data hmem
    unfold chartDatasets at hmem
    rw [List.mem_map] at hmem
    obtain ⟨t', ht', heq⟩ := hmem
    have ht : t' = t := congrArg Prod.fst heq
    have hd : (sortedTimestamps s).map (chartLookup t') = data := congrArg Prod.snd heq
    subst ht
    rw [List.mem_filter] at ht'
    exact ⟨ht'.1, ht'.2, hd.symm⟩
  · intro t ts
    constructor
    · unfold chartLookup
      cases hfind : t.lastTenVoltageReadings.find? (fun r => r.timestamp == ts) with
      | none =>
        simp only [true_iff]
        intro r hr
        have := List.find?_eq_none.mp hfind r hr
        simpa using this
      | some r =>
        simp only [reduceCtorEq, false_iff, not_forall]
        have hrmem := List.mem_of_find?_eq_some hfind
        have hrts : r.timestamp = ts := by
          have := List.find?_some hfind
          simpa using this
        push_neg
        exact ⟨r, hrmem, hrts⟩
    · intro v hv
      unfold chartLookup at hv
      cases hfind : t.lastTenVoltageReadings.find? (fun r => r.timestamp == ts) with
      | none => rw [hfind] at hv; exact absurd hv (by simp)
      | some r =>
        rw [hfind] at hv
        have hrv : r.voltage = v := by simpa using hv
        have hrmem := List.mem_of_find?_eq_some hfind
        have hrts : r.timestamp = ts := by
          have := List.find?_some hfind
          simpa using this
        exact ⟨r, hrmem, hrts, hrv⟩

/-- A transformer whose readings arrive out of chronological order. -/
def tChart : Transformer :=
  { assetId := 7, name := "Gamma", region := "West", health := .Fair,
    lastTenVoltageReadings :=
      [{ timestamp := "2024-02", voltage := 2 },
       { timestamp := "2024-01", voltage := 1 }] }

/-- A store state holding only `tChart`, which is selected. -/
def sChart : StoreState :=
  { transformers := [tChart], selectedTransformerIds := [7], tableSearch := "",
    healthFilter := none, hoveredTransformerId := none }

/-- Witness for `chart_axis_and_gap_spec` at `sChart`. -/
theorem chart_axis_and_gap_spec_witness :
    (sortedTimestamps sChart).Sorted (fun a b : String => a ≤ b) ∧
    (sortedTimestamps sChart).Perm
      (tChart.lastTenVoltageReadings.map (·.timestamp)) :=
  (chart_axis_and_gap_spec sChart).2.1 tChart [] (by decide)
